import Mathlib

/-!
Verification of the test-case synthesis engine (`AITestGenerator`) and the
sequential step executor (`TestExecutor`) of the AI-Powered-DApp-Testing
repository, as a shallow embedding in Lean 4.

Modelling conventions:
* A parsed interface-schema entry (`abi` array element) is an `AbiItem`; a
  possibly absent `inputs` field is an `Option`.  In the source, calling an
  array method on an absent `inputs` field throws a `TypeError`, which the
  embedding renders as `Except.error inputsUndefinedMsg`.
* The identifier suffixes produced by `Date.now()` / `Math.random()` and the
  fuzzed argument values produced by `Math.random()` are drawn from an opaque
  environment `GenEnv`, threaded through the generator by a counter: the
  `n`-th draw of a run is `env.freshId n` resp. `env.fuzzArg n input`.
* Argument values placed into test steps are strings or booleans (`ArgV`).
* The external ethers library is the chain-client collaborator: contract
  construction, call submission + confirmation, and the code probe are the
  three capabilities of a `ChainClient` record; `ethers.id` (a fixed
  deterministic hash of a string) is modelled as an opaque deterministic
  injection `ethersId` whose concrete value no claim depends on.
-/

/-- An argument value placed into a test step (the source uses JS strings and
booleans here). -/
inductive ArgV where
  | s : String → ArgV
  | b : Bool → ArgV
deriving DecidableEq, Repr

/-- One input parameter of a schema entry: `{ name, type }`. -/
structure AbiInput where
  name : String
  type : String
deriving DecidableEq, Repr

/-- One parsed interface-schema entry.  `type` is the entry's type tag
(`"function"` for function entries), `stateMutability` its mutability tag, and
`inputs` its parameter list; `inputs := none` models a malformed entry whose
`inputs` field is absent (JS `undefined`). -/
structure AbiItem where
  type : String
  name : String
  stateMutability : String
  inputs : Option (List AbiInput)
deriving DecidableEq, Repr

/-- The `params` record the generator stores in every step:
`{ method, contractAddress, args }`. -/
structure CallParams where
  method : String
  contractAddress : String
  args : List ArgV
deriving DecidableEq, Repr

/-- TestStep from src/src/types/TestCase.ts. -/
structure TestStep where
  id : String
  action : String
  params : CallParams
  description : String
deriving DecidableEq, Repr

/-- TestCase from src/src/types/TestCase.ts. -/
structure TestCase where
  id : String
  name : String
  description : String
  steps : List TestStep
  expectedResult : String
  actualResult : Option String
  status : String
deriving DecidableEq, Repr

/-- TestResult from src/src/types/TestCase.ts. -/
structure TestResult where
  testCaseId : String
  success : Bool
  error : Option String
  logs : List String
  timestamp : Nat
deriving DecidableEq, Repr

/-- Decidable equality of fallible results, used for closed evaluations. -/
instance exceptDecEq {ε α : Type} [DecidableEq ε] [DecidableEq α] :
    DecidableEq (Except ε α)
  | .error e₁, .error e₂ =>
    if h : e₁ = e₂ then isTrue (by rw [h])
    else isFalse (by intro hh; cases hh; exact h rfl)
  | .error _, .ok _ => isFalse (by intro h; cases h)
  | .ok _, .error _ => isFalse (by intro h; cases h)
  | .ok a₁, .ok a₂ =>
    if h : a₁ = a₂ then isTrue (by rw [h])
    else isFalse (by intro hh; cases hh; exact h rfl)

/-- Opaque entropy supply of one generator run: `freshId n` is the `n`-th
identifier suffix drawn from `Date.now()` / `Math.random()`, and
`fuzzArg n input` the `n`-th fuzzed argument value drawn by
`generateFuzzedArgs` (uniform random per type tag in the source). -/
structure GenEnv where
  freshId : Nat → String
  fuzzArg : Nat → AbiInput → ArgV

/-- Decimal string of `ethers.parseUnits('1', 'ether')`, i.e. 10^18. -/
def oneEtherStr : String := toString ((10 : Nat) ^ 18)

/-- Decimal string of `ethers.MaxUint256`, i.e. 2^256 - 1. -/
def maxUint256Str : String := toString ((2 : Nat) ^ 256 - 1)

/-- Decimal string of `ethers.MinInt256`, i.e. -(2^255). -/
def minInt256Str : String := toString (-((2 : Int) ^ 255))

/-- Decimal string of `ethers.MaxInt256`, i.e. 2^255 - 1. -/
def maxInt256Str : String := toString ((2 : Int) ^ 255 - 1)

/-- Models `ethers.id` (keccak-256 of a UTF-8 string) from the external ethers
library as an opaque deterministic tag; no claim depends on the concrete hash
value, only on its determinism. -/
def ethersId (s : String) : String := "0xkeccak256(" ++ s ++ ")"

/-- Error value modelling the `TypeError` raised when the source touches the
absent `inputs` field of a malformed function entry (e.g.
`generateSafeArgs(undefined)` calling `.map`, or `item.inputs.some(...)`). -/
def inputsUndefinedMsg : String :=
  "TypeError: Cannot read properties of undefined"

/-- AITestGenerator.generateSafeArgs, per-input switch. -/
def generateSafeArg (input : AbiInput) : ArgV :=
  match input.type with
  | "uint256" => .s oneEtherStr
  | "uint8" => .s "1"
  | "address" => .s "0x0000000000000000000000000000000000000001"
  | "string" => .s "Test String"
  | "bool" => .b true
  | "bytes" => .s "0x00"
  | "bytes32" => .s (ethersId "test")
  | _ => .s "0"

/-- AITestGenerator.generateSafeArgs. -/
def generateSafeArgs (inputs : List AbiInput) : List ArgV :=
  inputs.map generateSafeArg

/-- Models JS `String.prototype.startsWith` by structural recursion over the
character lists (so that closed evaluations reduce inside the kernel). -/
def jsStartsWith (s pre : String) : Bool := pre.data.isPrefixOf s.data

/-- The `'min' | 'max'` pass selector of generateBoundaryArgs. -/
inductive BoundaryKind where
  | min
  | max
deriving DecidableEq, Repr

/-- AITestGenerator.generateBoundaryArgs, per-input body: `uint*` types get
`'0'` / `MaxUint256`, `int*` types get `MinInt256` / `MaxInt256` (the declared
width is never consulted), and every other type falls back to the safe value. -/
def generateBoundaryArg (boundary : BoundaryKind) (input : AbiInput) : ArgV :=
  if jsStartsWith input.type "uint" then
    match boundary with
    | .min => .s "0"
    | .max => .s maxUint256Str
  else if jsStartsWith input.type "int" then
    match boundary with
    | .min => .s minInt256Str
    | .max => .s maxInt256Str
  else generateSafeArg input

/-- AITestGenerator.generateBoundaryArgs. -/
def generateBoundaryArgs (inputs : List AbiInput) (boundary : BoundaryKind) :
    List ArgV :=
  inputs.map (generateBoundaryArg boundary)

/-- AITestGenerator.generateFuzzedArgs: one fresh random draw per input,
supplied by the environment (`Math.random()`-based in the source). -/
def generateFuzzedArgs (env : GenEnv) (k : Nat) (inputs : List AbiInput) :
    List ArgV :=
  inputs.enum.map (fun p => env.fuzzArg (k + p.1) p.2)

/-- AITestGenerator.createViewFunctionTest.  `k` is the entropy counter; the
case id and the step id consume one draw each.  The source reads `abiItem.name`
and `abiItem.inputs`; the inputs list is passed already extracted (an absent
list has made the caller fault before reaching this point, see
`casesForItem`). -/
def createViewFunctionTest (env : GenEnv) (k : Nat) (name : String)
    (inputs : List AbiInput) (contractAddress : String) : TestCase × Nat :=
  ({ id := "view-" ++ env.freshId k,
     name := "Read Test: " ++ name,
     description := "Verify read operation for " ++ name ++ " function",
     steps := [
       { id := "step-" ++ env.freshId (k + 1),
         action := "CONTRACT_CALL",
         params := { method := name, contractAddress := contractAddress,
                     args := generateSafeArgs inputs },
         description := "Call " ++ name ++ " with safe parameters" }],
     expectedResult := "Function should return a valid response",
     actualResult := none,
     status := "pending" }, k + 2)

/-- AITestGenerator.createWriteFunctionTest. -/
def createWriteFunctionTest (env : GenEnv) (k : Nat) (name : String)
    (inputs : List AbiInput) (contractAddress : String) : TestCase × Nat :=
  ({ id := "write-" ++ env.freshId k,
     name := "Write Test: " ++ name,
     description := "Verify state change for " ++ name ++ " function",
     steps := [
       { id := "step-" ++ env.freshId (k + 1),
         action := "CONTRACT_CALL",
         params := { method := name, contractAddress := contractAddress,
                     args := generateSafeArgs inputs },
         description := "Execute " ++ name ++ " with valid parameters" }],
     expectedResult := "Transaction should be successful and state should be updated",
     actualResult := none,
     status := "pending" }, k + 2)

/-- AITestGenerator.createBoundaryTest: one case, two steps (min pass then max
pass over the same input list). -/
def createBoundaryTest (env : GenEnv) (k : Nat) (name : String)
    (inputs : List AbiInput) (contractAddress : String) : TestCase × Nat :=
  ({ id := "boundary-" ++ env.freshId k,
     name := "Boundary Test: " ++ name,
     description := "Test boundary conditions for " ++ name ++ " function",
     steps := [
       { id := "step-min-" ++ env.freshId (k + 1),
         action := "CONTRACT_CALL",
         params := { method := name, contractAddress := contractAddress,
                     args := generateBoundaryArgs inputs .min },
         description := "Test " ++ name ++ " with minimum values" },
       { id := "step-max-" ++ env.freshId (k + 2),
         action := "CONTRACT_CALL",
         params := { method := name, contractAddress := contractAddress,
                     args := generateBoundaryArgs inputs .max },
         description := "Test " ++ name ++ " with maximum values" }],
     expectedResult := "Function should handle boundary values correctly",
     actualResult := none,
     status := "pending" }, k + 3)

/-- AITestGenerator.createFuzzingTest. -/
def createFuzzingTest (env : GenEnv) (k : Nat) (name : String)
    (inputs : List AbiInput) (contractAddress : String) : TestCase × Nat :=
  ({ id := "fuzz-" ++ env.freshId k,
     name := "Fuzzing Test: " ++ name,
     description := "Fuzz testing for " ++ name ++ " function with random inputs",
     steps := [
       { id := "step-fuzz-" ++ env.freshId (k + 1),
         action := "CONTRACT_CALL",
         params := { method := name, contractAddress := contractAddress,
                     args := generateFuzzedArgs env (k + 2) inputs },
         description := "Test " ++ name ++ " with fuzzed inputs" }],
     expectedResult := "Function should handle unexpected inputs gracefully",
     actualResult := none,
     status := "pending" }, k + 2 + inputs.length)

/-- Entries the generator loop processes: `item.type === 'function'`. -/
def isFunctionItem (i : AbiItem) : Bool := i.type == "function"

/-- The read-branch condition of the generator loop:
`stateMutability === 'view' || stateMutability === 'pure'`. -/
def isViewPure (i : AbiItem) : Bool :=
  i.stateMutability == "view" || i.stateMutability == "pure"

/-- The boundary-test trigger:
`inputs.some(i => i.type.startsWith('uint') || i.type.startsWith('int'))`. -/
def hasIntInput (l : List AbiInput) : Bool :=
  l.any (fun inp => jsStartsWith inp.type "uint" || jsStartsWith inp.type "int")

/-- The fuzz-test trigger: `inputs.length > 0`. -/
def hasParams (l : List AbiInput) : Bool := decide (0 < l.length)

/-- The body of one iteration of the `for (const item of abi)` loop of
AITestGenerator.generateTestCases: a non-function entry contributes nothing; a
function entry contributes its read-or-write case, then a boundary case when
some input type starts with `uint`/`int`, then a fuzz case when it has inputs.
Touching the absent `inputs` field of a malformed function entry faults (in the
source, inside `generateSafeArgs(abiItem.inputs)` of the read/write case). -/
def casesForItem (env : GenEnv) (item : AbiItem) (addr : String) (k : Nat) :
    Except String (List TestCase × Nat) :=
  if isFunctionItem item then
    match item.inputs with
    | none => .error inputsUndefinedMsg
    | some inputs =>
      let rw :=
        if isViewPure item then createViewFunctionTest env k item.name inputs addr
        else createWriteFunctionTest env k item.name inputs addr
      let bd :=
        if hasIntInput inputs then
          let p := createBoundaryTest env rw.2 item.name inputs addr
          ([p.1], p.2)
        else ([], rw.2)
      let fz :=
        if hasParams inputs then
          let p := createFuzzingTest env bd.2 item.name inputs addr
          ([p.1], p.2)
        else ([], bd.2)
      .ok (rw.1 :: (bd.1 ++ fz.1), fz.2)
  else .ok ([], k)

/-- The `for (const item of abi)` loop of generateTestCases, threading the
entropy counter; a fault in any iteration propagates (there is no per-entry
try/catch in the source). -/
def genLoop (env : GenEnv) (addr : String) :
    List AbiItem → Nat → Except String (List TestCase × Nat)
  | [], k => .ok ([], k)
  | item :: rest, k =>
    match casesForItem env item addr k with
    | .error e => .error e
    | .ok (cs, k') =>
      match genLoop env addr rest k' with
      | .error e => .error e
      | .ok (cs', k'') => .ok (cs ++ cs', k'')

/-- The write-function filter of generateIntegrationTests:
`type === 'function' && stateMutability !== 'view' && stateMutability !== 'pure'`. -/
def isWriteFn (i : AbiItem) : Bool :=
  isFunctionItem i && i.stateMutability != "view" && i.stateMutability != "pure"

/-- The read-function filter of generateIntegrationTests:
`type === 'function' && (stateMutability === 'view' || stateMutability === 'pure')`. -/
def isReadFn (i : AbiItem) : Bool :=
  isFunctionItem i && (i.stateMutability == "view" || i.stateMutability == "pure")

/-- The single integration case pushed by generateIntegrationTests: write the
first write function, then verify with the first read function, both with safe
arguments. -/
def createIntegrationTest (env : GenEnv) (k : Nat) (wname rname : String)
    (wi ri : List AbiInput) (addr : String) : TestCase :=
  { id := "integration-" ++ env.freshId k,
    name := "State Change Verification",
    description := "Verify state changes through write operations and confirm with read operations",
    steps := [
      { id := "step-write-" ++ env.freshId (k + 1),
        action := "CONTRACT_CALL",
        params := { method := wname, contractAddress := addr,
                    args := generateSafeArgs wi },
        description := "Execute " ++ wname ++ " to modify state" },
      { id := "step-read-" ++ env.freshId (k + 2),
        action := "CONTRACT_CALL",
        params := { method := rname, contractAddress := addr,
                    args := generateSafeArgs ri },
        description := "Verify state change using " ++ rname }],
    expectedResult := "State change should be reflected in read operation",
    actualResult := none,
    status := "pending" }

/-- AITestGenerator.generateIntegrationTests: when both filters are non-empty,
one two-step case calling the first write function then the first read
function, each with safe arguments; otherwise no case.  Safe-argument
generation touches the chosen entries' `inputs` fields and faults when one is
absent. -/
def generateIntegrationTests (env : GenEnv) (k : Nat) (abi : List AbiItem)
    (addr : String) : Except String (List TestCase × Nat) :=
  let writeFunctions := abi.filter isWriteFn
  let readFunctions := abi.filter isReadFn
  match writeFunctions, readFunctions with
  | w :: _, r :: _ =>
    match w.inputs, r.inputs with
    | some wi, some ri =>
      .ok ([createIntegrationTest env k w.name r.name wi ri addr], k + 3)
    | _, _ => .error inputsUndefinedMsg
  | _, _ => .ok ([], k)

/-- AITestGenerator.generateTestCases: the per-entry loop followed by the
integration cases, concatenated in that order. -/
def generateTestCases (env : GenEnv) (abi : List AbiItem) (addr : String) :
    Except String (List TestCase) :=
  match genLoop env addr abi 0 with
  | .error e => .error e
  | .ok (cs, k) =>
    match generateIntegrationTests env k abi addr with
    | .error e => .error e
    | .ok (is, _) => .ok (cs ++ is)

/-- Case-kind discriminators, keyed on the fixed expected-result narrative each
generator path writes (the five narratives are pairwise distinct constants). -/
def isReadCase (c : TestCase) : Bool :=
  c.expectedResult == "Function should return a valid response"

/-- A write-style case (see `isReadCase`). -/
def isWriteCase (c : TestCase) : Bool :=
  c.expectedResult == "Transaction should be successful and state should be updated"

/-- A boundary case (see `isReadCase`). -/
def isBoundaryCase (c : TestCase) : Bool :=
  c.expectedResult == "Function should handle boundary values correctly"

/-- A fuzz case (see `isReadCase`). -/
def isFuzzCase (c : TestCase) : Bool :=
  c.expectedResult == "Function should handle unexpected inputs gracefully"

/-- An integration case (see `isReadCase`). -/
def isIntegrationCase (c : TestCase) : Bool :=
  c.expectedResult == "State change should be reflected in read operation"

/-- A schema is well-formed when every function entry carries an inputs list. -/
def wellFormed (abi : List AbiItem) : Prop :=
  ∀ i ∈ abi, i.type = "function" → i.inputs ≠ none

instance (abi : List AbiItem) : Decidable (wellFormed abi) := by
  unfold wellFormed; infer_instance

/-- A concrete entropy supply used for closed evaluations. -/
def defaultEnv : GenEnv :=
  { freshId := fun n => "id" ++ toString n,
    fuzzArg := fun _ _ => .s "0" }


/-- The chain-client capability (the ethers provider/signer collaborator):
contract construction (`new ethers.Contract` — may throw on a bad address or
unparseable fragment), call submission plus confirmation
(`contract[method](...args)` then `tx.wait()` — yields the transaction hash or
a fault message), and the code probe (`provider.getCode`). -/
structure ChainClient where
  makeContract : String → String → Except String Unit
  call : String → String → List ArgV → Except String String
  getCode : String → Except String String

/-- The `for (const step of testCase.steps)` loop of TestExecutor.executeTest.
Steps whose action is not `CONTRACT_CALL` are skipped.  A contract-call step
first constructs the contract (a fault here precedes the `Executing` log
line), then logs `Executing contract call`, then submits and awaits the call
(a fault here carries the logs accumulated so far), then logs the transaction
hash.  The `TestCase` is threaded through unchanged: the source loop reads the
case but assigns to none of its fields. -/
def runSteps (cc : ChainClient) (tc : TestCase) :
    List TestStep → List String → TestCase × Except (String × List String) (List String)
  | [], logs => (tc, .ok logs)
  | step :: rest, logs =>
    if step.action = "CONTRACT_CALL" then
      match cc.makeContract step.params.contractAddress step.params.method with
      | .error e => (tc, .error (e, logs))
      | .ok _ =>
        let logs1 := logs ++ ["Executing contract call: " ++ step.params.method]
        match cc.call step.params.contractAddress step.params.method
            step.params.args with
        | .error e => (tc, .error (e, logs1))
        | .ok txHash =>
            runSteps cc tc rest (logs1 ++ ["Transaction successful: " ++ txHash])
    else runSteps cc tc rest logs

/-- TestExecutor.executeTest.  `now` is the `Date.now()` timestamp of the
result.  The returned pair is (the input case after the call — the body never
writes to it — , the TestResult).  On a fault the catch block appends
`Error: message` to the accumulated logs and reports failure with the fault
message; otherwise it reports success with the full log. -/
def executeTest (cc : ChainClient) (now : Nat) (testCase : TestCase) :
    TestCase × TestResult :=
  let logs0 := ["Starting test: " ++ testCase.name]
  match runSteps cc testCase testCase.steps logs0 with
  | (tc, .ok logs) =>
      (tc, { testCaseId := testCase.id, success := true, error := none,
             logs := logs, timestamp := now })
  | (tc, .error (e, logs)) =>
      (tc, { testCaseId := testCase.id, success := false, error := some e,
             logs := logs ++ ["Error: " ++ e], timestamp := now })

/-- The per-case update of App.tsx handleExecuteTests (lines 76-77):
`test.status = result.success ? 'passed' : 'failed'` and
`test.actualResult = result.success ? 'Test passed successfully' : result.error`. -/
def applyResult (test : TestCase) (result : TestResult) : TestCase :=
  { test with
    status := if result.success then "passed" else "failed",
    actualResult :=
      if result.success then some "Test passed successfully" else result.error }

/-- One iteration of the batch loop of handleExecuteTests: mark the case
`running`, execute it, then apply the returned result to the case. -/
def runCase (cc : ChainClient) (now : Nat) (test : TestCase) : TestCase :=
  let running := { test with status := "running" }
  let result := (executeTest cc now running).2
  applyResult running result

/-- The batch loop of handleExecuteTests over all generated cases, in order. -/
def executeBatch (cc : ChainClient) (now : Nat) (tests : List TestCase) :
    List TestCase :=
  tests.map (runCase cc now)

/-- TestExecutor.validateContract: probe the code at the address; any fault of
the probe (malformed address, unreachable network) is caught and yields
`false`; otherwise the probe result is compared against the empty-code marker
`'0x'`. -/
def validateContract (cc : ChainClient) (address : String) : Bool :=
  match cc.getCode address with
  | .ok code => code != "0x"
  | .error _ => false

/-- Concrete chain client whose calls fault with message `boom`. -/
def ccBoom : ChainClient :=
  { makeContract := fun _ _ => .ok (),
    call := fun _ _ _ => .error "boom",
    getCode := fun _ => .ok "0x" }

/-- Concrete chain client on which every capability succeeds and the target
address carries code. -/
def ccCode : ChainClient :=
  { makeContract := fun _ _ => .ok (),
    call := fun _ _ _ => .ok "0xhash",
    getCode := fun _ => .ok "0x6001" }

/-- Concrete chain client whose target address carries no code. -/
def ccNoCode : ChainClient :=
  { makeContract := fun _ _ => .ok (),
    call := fun _ _ _ => .ok "0xhash",
    getCode := fun _ => .ok "0x" }

/-- Concrete chain client whose code probe itself faults. -/
def ccProbeFail : ChainClient :=
  { makeContract := fun _ _ => .ok (),
    call := fun _ _ _ => .ok "0xhash",
    getCode := fun _ => .error "invalid address" }

/-- A concrete contract-call step. -/
def stepA : TestStep :=
  { id := "s1", action := "CONTRACT_CALL",
    params := { method := "m", contractAddress := "0xA", args := [] },
    description := "first step" }

/-- A second concrete contract-call step. -/
def stepB : TestStep :=
  { id := "s2", action := "CONTRACT_CALL",
    params := { method := "m2", contractAddress := "0xA", args := [] },
    description := "second step" }

/-- A concrete step of an unrecognized action kind. -/
def stepW : TestStep :=
  { id := "s3", action := "WAIT",
    params := { method := "", contractAddress := "", args := [] },
    description := "no-op step" }

/-- A concrete two-step case. -/
def tcTwo : TestCase :=
  { id := "t1", name := "T", description := "two call steps",
    steps := [stepA, stepB], expectedResult := "ok", actualResult := none,
    status := "pending" }

/-- A concrete one-step case. -/
def tcOne : TestCase :=
  { id := "t2", name := "U", description := "one call step",
    steps := [stepA], expectedResult := "ok", actualResult := none,
    status := "pending" }

/-- A concrete case with only an unrecognized step. -/
def tcSkip : TestCase :=
  { id := "t3", name := "V", description := "no call step",
    steps := [stepW], expectedResult := "ok", actualResult := none,
    status := "pending" }

/-- Shape of a boundary case over a target address: exactly two contract-call
steps against the same method, whose argument lists are the min pass and the
max pass over one input list that has an integer-typed member — unsigned
integers get `0` then `MaxUint256`, signed integers get `MinInt256` then
`MaxInt256` (independently of the declared width), all other parameters get
their safe value in both steps. -/
def BoundaryShape (addr : String) (c : TestCase) : Prop :=
  ∃ (l : List AbiInput) (s₁ s₂ : TestStep),
    c.steps = [s₁, s₂] ∧
    s₁.action = "CONTRACT_CALL" ∧ s₂.action = "CONTRACT_CALL" ∧
    s₁.params.method = s₂.params.method ∧
    s₁.params.contractAddress = addr ∧ s₂.params.contractAddress = addr ∧
    s₁.params.args = l.map (fun i =>
      if jsStartsWith i.type "uint" then ArgV.s "0"
      else if jsStartsWith i.type "int" then ArgV.s minInt256Str
      else generateSafeArg i) ∧
    s₂.params.args = l.map (fun i =>
      if jsStartsWith i.type "uint" then ArgV.s maxUint256Str
      else if jsStartsWith i.type "int" then ArgV.s maxInt256Str
      else generateSafeArg i) ∧
    hasIntInput l = true

/-- The demonstration schema of the specification: one view function
`balanceOf(address)` and one nonpayable function `transfer(address,uint256)`. -/
def demoAbi : List AbiItem :=
  [{ type := "function", name := "balanceOf", stateMutability := "view",
     inputs := some [{ name := "account", type := "address" }] },
   { type := "function", name := "transfer", stateMutability := "nonpayable",
     inputs := some [{ name := "to", type := "address" },
                     { name := "amount", type := "uint256" }] }]

/-- A schema with one function whose parameters are a `uint8` and an `int8`. -/
def c1abi : List AbiItem :=
  [{ type := "function", name := "f", stateMutability := "nonpayable",
     inputs := some [{ name := "x", type := "uint8" },
                     { name := "y", type := "int8" }] }]

/-- A schema whose middle entry is a malformed function entry (absent inputs
list) between two well-formed function entries. -/
def c2abi : List AbiItem :=
  [{ type := "function", name := "g", stateMutability := "view",
     inputs := some [{ name := "x", type := "uint8" }] },
   { type := "function", name := "bad", stateMutability := "nonpayable",
     inputs := none },
   { type := "function", name := "h", stateMutability := "view",
     inputs := some [] }]

/-- Projection: the per-step argument lists of the first boundary case of a
synthesis result. -/
def boundaryStepArgs (r : Except String (List TestCase)) :
    Option (List (List ArgV)) :=
  match r with
  | .ok cases =>
    match cases.find? isBoundaryCase with
    | some c => some (c.steps.map (fun s => s.params.args))
    | none => none
  | .error _ => none

/-- Erasure of one step's opaque content: the identifier always, the argument
list when the enclosing case is a fuzz case. -/
def stripStep (fz : Bool) (s : TestStep) : TestStep :=
  { s with
    id := "",
    params := if fz then { s.params with args := [] } else s.params }

/-- Erasure of one case's opaque content: the case identifier, every step
identifier, and — only for fuzz cases — the randomly drawn argument values.
Everything else (names, descriptions, narratives, status, step count, method,
target address, and the argument values of the safe and boundary paths) is
kept. -/
def stripCase (c : TestCase) : TestCase :=
  { c with id := "", steps := c.steps.map (stripStep (isFuzzCase c)) }

/-- Erasure over one generator phase's result. -/
def stripPhase (r : Except String (List TestCase × Nat)) :
    Except String (List TestCase × Nat) :=
  match r with
  | .ok (cs, k) => .ok (cs.map stripCase, k)
  | .error e => .error e

/-- Erasure over a whole synthesis result. -/
def stripResult (r : Except String (List TestCase)) :
    Except String (List TestCase) :=
  match r with
  | .ok cases => .ok (cases.map stripCase)
  | .error e => .error e

/-- Canonical stripped contract-call step. -/
def strippedCallStep (method a ds : String) (args : List ArgV) : TestStep :=
  { id := "", action := "CONTRACT_CALL",
    params := { method := method, contractAddress := a, args := args },
    description := ds }

/-- Canonical stripped case. -/
def strippedCase (nm ds er : String) (steps : List TestStep) : TestCase :=
  { id := "", name := nm, description := ds, steps := steps,
    expectedResult := er, actualResult := none, status := "pending" }

/-- The step loop never writes to the threaded case. -/
theorem runSteps_fst (cc : ChainClient) (tc : TestCase) :
    ∀ (steps : List TestStep) (logs : List String),
      (runSteps cc tc steps logs).1 = tc
  | [], _ => rfl
  | step :: rest, logs => by
    unfold runSteps
    by_cases hact : step.action = "CONTRACT_CALL"
    · simp only [if_pos hact]
      cases cc.makeContract step.params.contractAddress step.params.method with
      | error e => rfl
      | ok u =>
        cases cc.call step.params.contractAddress step.params.method
            step.params.args with
        | error e => rfl
        | ok h => exact runSteps_fst cc tc rest _
    · simp only [if_neg hact]
      exact runSteps_fst cc tc rest logs

/-- A step list with no contract-call step leaves the log untouched and
succeeds. -/
theorem runSteps_skipAll (cc : ChainClient) (tc : TestCase) :
    ∀ (steps : List TestStep) (logs : List String),
      (∀ s ∈ steps, s.action ≠ "CONTRACT_CALL") →
      runSteps cc tc steps logs = (tc, .ok logs)
  | [], _, _ => rfl
  | step :: rest, logs, h => by
    unfold runSteps
    have hact : ¬ step.action = "CONTRACT_CALL" := h step (by simp)
    simp only [if_neg hact]
    exact runSteps_skipAll cc tc rest logs (fun s hs => h s (by simp [hs]))

/-- A step list all of whose contract-call steps succeed runs to completion. -/
theorem runSteps_allOk (cc : ChainClient) (tc : TestCase) :
    ∀ (steps : List TestStep),
      (∀ step ∈ steps, step.action = "CONTRACT_CALL" →
        cc.makeContract step.params.contractAddress step.params.method = .ok () ∧
        ∃ h, cc.call step.params.contractAddress step.params.method
          step.params.args = .ok h) →
      ∀ logs : List String, ∃ logs', runSteps cc tc steps logs = (tc, .ok logs')
  | [], _, logs => ⟨logs, rfl⟩
  | step :: rest, h, logs => by
    unfold runSteps
    by_cases hact : step.action = "CONTRACT_CALL"
    · obtain ⟨hmk, hsh, hcall⟩ := h step (by simp) hact
      simp only [if_pos hact, hmk, hcall]
      exact runSteps_allOk cc tc rest
        (fun s hs ha => h s (by simp [hs]) ha) _
    · simp only [if_neg hact]
      exact runSteps_allOk cc tc rest (fun s hs ha => h s (by simp [hs]) ha) logs

/-- C3 counterexample: on `tcTwo`, whose first step's call faults with `boom`,
the executor stops the case, reports failure with the fault text — but the
result's log has length 3 (start line, call-attempt line, error line), not 1
as the claim states. -/
theorem claim_C3_counterexample :
    (executeTest ccBoom 0 tcTwo).2.success = false ∧
    (executeTest ccBoom 0 tcTwo).2.error = some "boom" ∧
    (executeTest ccBoom 0 tcTwo).2.logs =
      ["Starting test: T", "Executing contract call: m", "Error: boom"] ∧
    ¬ (executeTest ccBoom 0 tcTwo).2.logs.length = 1 := by
  decide

/-- C3 (amended): for every case whose first step is a contract call whose
submission faults, execution stops immediately (the result coincides with the
result of the case truncated to that one step), the case ends `failed` with
`actualResult` equal to the fault message verbatim, and the fault is
observable via the log being exactly the three lines start / call-attempt /
error — in particular no log line for any later step. -/
theorem claim_C3_amended (cc : ChainClient) (now : Nat) (tc : TestCase)
    (s : TestStep) (rest : List TestStep) (msg : String)
    (hsteps : tc.steps = s :: rest)
    (hact : s.action = "CONTRACT_CALL")
    (hmk : cc.makeContract s.params.contractAddress s.params.method = .ok ())
    (hcall : cc.call s.params.contractAddress s.params.method s.params.args =
      .error msg) :
    (executeTest cc now tc).2.success = false ∧
    (executeTest cc now tc).2.error = some msg ∧
    (executeTest cc now tc).2.logs =
      ["Starting test: " ++ tc.name,
       "Executing contract call: " ++ s.params.method,
       "Error: " ++ msg] ∧
    (executeTest cc now tc).2 = (executeTest cc now { tc with steps := [s] }).2 ∧
    (runCase cc now tc).status = "failed" ∧
    (runCase cc now tc).actualResult = some msg := by
  have hrun : ∀ (tcx : TestCase) (rest' : List TestStep) (logs : List String),
      runSteps cc tcx (s :: rest') logs =
        (tcx, .error (msg, logs ++ ["Executing contract call: " ++ s.params.method])) := by
    intro tcx rest' logs
    unfold runSteps
    simp only [if_pos hact, hmk, hcall]
  constructor
  · simp [executeTest, hsteps, hrun]
  constructor
  · simp [executeTest, hsteps, hrun]
  constructor
  · simp [executeTest, hsteps, hrun]
  constructor
  · simp [executeTest, hsteps, hrun]
  constructor
  · simp [runCase, executeTest, applyResult, hsteps, hrun]
  · simp [runCase, executeTest, applyResult, hsteps, hrun]

/-- C3 witness: the amended theorem applied to the concrete faulting client and
two-step case. -/
theorem claim_C3_witness :
    (runCase ccBoom 0 tcTwo).status = "failed" ∧
    (runCase ccBoom 0 tcTwo).actualResult = some "boom" :=
  ⟨(claim_C3_amended ccBoom 0 tcTwo stepA [stepB] "boom" rfl rfl rfl rfl).2.2.2.2.1,
   (claim_C3_amended ccBoom 0 tcTwo stepA [stepB] "boom" rfl rfl rfl rfl).2.2.2.2.2⟩

/-- C7: `validateContract` returns false when the code probe faults and when
the probe reports the empty-code marker `0x`, and returns true exactly when
the probe succeeds with deployed code; being a total Boolean function, it
never raises a fault to the caller. -/
theorem claim_C7 (cc : ChainClient) (address : String) :
    (∀ e, cc.getCode address = .error e → validateContract cc address = false) ∧
    (cc.getCode address = .ok "0x" → validateContract cc address = false) ∧
    (validateContract cc address = true ↔
      ∃ code, cc.getCode address = .ok code ∧ code ≠ "0x") := by
  refine ⟨fun e he => ?_, fun h => ?_, ?_⟩
  · simp [validateContract, he]
  · simp [validateContract, h]
  · cases hg : cc.getCode address with
    | ok c => simp [validateContract, hg, bne_iff_ne]
    | error e => simp [validateContract, hg]

/-- C7 witness: the theorem applied to a faulting probe, an address without
code, and an address with code. -/
theorem claim_C7_witness :
    validateContract ccProbeFail "not-an-address" = false ∧
    validateContract ccNoCode "0xA" = false ∧
    validateContract ccCode "0xA" = true :=
  ⟨(claim_C7 ccProbeFail "not-an-address").1 "invalid address" rfl,
   (claim_C7 ccNoCode "0xA").2.1 rfl,
   (claim_C7 ccCode "0xA").2.2.mpr ⟨"0x6001", rfl, by decide⟩⟩

/-- C8: a case all of whose steps complete without fault yields a successful
result, and the batch driver then marks it `passed` with the fixed non-empty
narrative `Test passed successfully` as `actualResult` (a constant, hence
independent of the step-level log content). -/
theorem claim_C8 (cc : ChainClient) (now : Nat) (tc : TestCase)
    (hok : ∀ step ∈ tc.steps, step.action = "CONTRACT_CALL" →
      cc.makeContract step.params.contractAddress step.params.method = .ok () ∧
      ∃ h, cc.call step.params.contractAddress step.params.method
        step.params.args = .ok h) :
    (executeTest cc now tc).2.success = true ∧
    (runCase cc now tc).status = "passed" ∧
    (runCase cc now tc).actualResult = some "Test passed successfully" ∧
    "Test passed successfully" ≠ "" := by
  obtain ⟨logs₁, h₁⟩ := runSteps_allOk cc tc tc.steps hok
    ["Starting test: " ++ tc.name]
  have hrunning : ∀ st : String,
      ∃ logs', runSteps cc { tc with status := st }
        tc.steps ["Starting test: " ++ tc.name] =
        ({ tc with status := st }, .ok logs') :=
    fun st => runSteps_allOk cc { tc with status := st } tc.steps hok _
  obtain ⟨logs₂, h₂⟩ := hrunning "running"
  refine ⟨?_, ?_, ?_, by decide⟩
  · simp [executeTest, h₁]
  · simp [runCase, executeTest, applyResult, h₂]
  · simp [runCase, executeTest, applyResult, h₂]

/-- C8 witness: the theorem applied to the concrete succeeding client and
one-step case. -/
theorem claim_C8_witness :
    (runCase ccCode 0 tcOne).status = "passed" ∧
    (runCase ccCode 0 tcOne).actualResult = some "Test passed successfully" :=
  ⟨(claim_C8 ccCode 0 tcOne
      (by intro step hs _; simp [tcOne] at hs; subst hs; exact ⟨rfl, "0xhash", rfl⟩)).2.1,
   (claim_C8 ccCode 0 tcOne
      (by intro step hs _; simp [tcOne] at hs; subst hs; exact ⟨rfl, "0xhash", rfl⟩)).2.2.1⟩

/-- C9: `executeTest` leaves the input case record unmodified (the pair's first
component — the case as threaded through the step loop — equals the input),
and all status / actualResult mutation is done by the batch driver's
`applyResult`, which changes no other field of the case. -/
theorem claim_C9 (cc : ChainClient) (now : Nat) (tc : TestCase) :
    (executeTest cc now tc).1 = tc ∧
    ∀ r : TestResult,
      (applyResult tc r).id = tc.id ∧
      (applyResult tc r).name = tc.name ∧
      (applyResult tc r).description = tc.description ∧
      (applyResult tc r).steps = tc.steps ∧
      (applyResult tc r).expectedResult = tc.expectedResult := by
  constructor
  · have hfst := runSteps_fst cc tc tc.steps ["Starting test: " ++ tc.name]
    rcases hrs : runSteps cc tc tc.steps ["Starting test: " ++ tc.name] with
      ⟨tc', res⟩
    rw [hrs] at hfst
    rcases res with ⟨e, logs⟩ | logs <;> simp [executeTest, hrs] <;> exact hfst
  · intro r
    simp [applyResult]

/-- C10: a case none of whose steps is a contract call triggers no chain-client
submission at all — the result is independent of the chain client — and it
succeeds with only the start line in its log; unrecognized action kinds are
silently skipped rather than faulting. -/
theorem claim_C10 (cc cc' : ChainClient) (now : Nat) (tc : TestCase)
    (hnc : ∀ step ∈ tc.steps, step.action ≠ "CONTRACT_CALL") :
    (executeTest cc now tc).2 = (executeTest cc' now tc).2 ∧
    (executeTest cc now tc).2.success = true ∧
    (executeTest cc now tc).2.logs = ["Starting test: " ++ tc.name] := by
  have h1 := runSteps_skipAll cc tc tc.steps ["Starting test: " ++ tc.name] hnc
  have h2 := runSteps_skipAll cc' tc tc.steps ["Starting test: " ++ tc.name] hnc
  refine ⟨?_, ?_, ?_⟩ <;> simp [executeTest, h1, h2]

/-- C10 witness: the theorem applied to the case with only a `WAIT` step, over
two different chain clients. -/
theorem claim_C10_witness :
    (executeTest ccCode 0 tcSkip).2 = (executeTest ccProbeFail 0 tcSkip).2 ∧
    (executeTest ccCode 0 tcSkip).2.success = true ∧
    (executeTest ccCode 0 tcSkip).2.logs = ["Starting test: V"] :=
  claim_C10 ccCode ccProbeFail 0 tcSkip (by decide)

section Classification

variable (env : GenEnv) (k : Nat) (n : String) (l : List AbiInput) (a : String)

/-- Classification of the read-style case by its fixed narrative. -/
@[simp] lemma readCase_class :
    isReadCase (createViewFunctionTest env k n l a).1 = true ∧
    isWriteCase (createViewFunctionTest env k n l a).1 = false ∧
    isBoundaryCase (createViewFunctionTest env k n l a).1 = false ∧
    isFuzzCase (createViewFunctionTest env k n l a).1 = false ∧
    isIntegrationCase (createViewFunctionTest env k n l a).1 = false :=
  ⟨rfl, rfl, rfl, rfl, rfl⟩

/-- Classification of the write-style case by its fixed narrative. -/
@[simp] lemma writeCase_class :
    isReadCase (createWriteFunctionTest env k n l a).1 = false ∧
    isWriteCase (createWriteFunctionTest env k n l a).1 = true ∧
    isBoundaryCase (createWriteFunctionTest env k n l a).1 = false ∧
    isFuzzCase (createWriteFunctionTest env k n l a).1 = false ∧
    isIntegrationCase (createWriteFunctionTest env k n l a).1 = false :=
  ⟨rfl, rfl, rfl, rfl, rfl⟩

/-- Classification of the boundary case by its fixed narrative. -/
@[simp] lemma boundaryCase_class :
    isReadCase (createBoundaryTest env k n l a).1 = false ∧
    isWriteCase (createBoundaryTest env k n l a).1 = false ∧
    isBoundaryCase (createBoundaryTest env k n l a).1 = true ∧
    isFuzzCase (createBoundaryTest env k n l a).1 = false ∧
    isIntegrationCase (createBoundaryTest env k n l a).1 = false :=
  ⟨rfl, rfl, rfl, rfl, rfl⟩

/-- Classification of the fuzz case by its fixed narrative. -/
@[simp] lemma fuzzCase_class :
    isReadCase (createFuzzingTest env k n l a).1 = false ∧
    isWriteCase (createFuzzingTest env k n l a).1 = false ∧
    isBoundaryCase (createFuzzingTest env k n l a).1 = false ∧
    isFuzzCase (createFuzzingTest env k n l a).1 = true ∧
    isIntegrationCase (createFuzzingTest env k n l a).1 = false :=
  ⟨rfl, rfl, rfl, rfl, rfl⟩

/-- Step counts of the four per-function case shapes. -/
@[simp] lemma createSteps_length :
    (createViewFunctionTest env k n l a).1.steps.length = 1 ∧
    (createWriteFunctionTest env k n l a).1.steps.length = 1 ∧
    (createBoundaryTest env k n l a).1.steps.length = 2 ∧
    (createFuzzingTest env k n l a).1.steps.length = 1 :=
  ⟨rfl, rfl, rfl, rfl⟩

/-- Classification of the integration case by its fixed narrative. -/
@[simp] lemma integrationCase_class (env : GenEnv) (k : Nat)
    (wname rname : String) (wi ri : List AbiInput) (a : String) :
    isReadCase (createIntegrationTest env k wname rname wi ri a) = false ∧
    isWriteCase (createIntegrationTest env k wname rname wi ri a) = false ∧
    isBoundaryCase (createIntegrationTest env k wname rname wi ri a) = false ∧
    isFuzzCase (createIntegrationTest env k wname rname wi ri a) = false ∧
    isIntegrationCase (createIntegrationTest env k wname rname wi ri a) = true :=
  ⟨rfl, rfl, rfl, rfl, rfl⟩

end Classification


/-- Characterization of the cases one well-formed function entry contributes
to the generator loop: its read-or-write case, a boundary case exactly when an
input type is integer-tagged, a fuzz case exactly when it has inputs, and
nothing else. -/
lemma casesForItem_spec (env : GenEnv) (item : AbiItem) (addr : String)
    (k : Nat) (l : List AbiInput)
    (hf : isFunctionItem item = true) (hl : item.inputs = some l) :
    ∃ cs k', casesForItem env item addr k = .ok (cs, k') ∧
      cs.countP isReadCase = (if isViewPure item then 1 else 0) ∧
      cs.countP isWriteCase = (if isViewPure item then 0 else 1) ∧
      cs.countP isBoundaryCase = (if hasIntInput l then 1 else 0) ∧
      cs.countP isFuzzCase = (if hasParams l then 1 else 0) ∧
      cs.countP isIntegrationCase = 0 ∧
      (∀ c ∈ cs,
        (isReadCase c || isWriteCase c || isBoundaryCase c || isFuzzCase c) = true) ∧
      (∀ c ∈ cs, isReadCase c = true ∨ isWriteCase c = true ∨ isFuzzCase c = true →
        c.steps.length = 1) ∧
      (∀ c ∈ cs, isBoundaryCase c = true → BoundaryShape addr c) := by
  have hbshape : hasIntInput l = true →
      ∀ k₀, BoundaryShape addr (createBoundaryTest env k₀ item.name l addr).1 := by
    intro hint k₀
    exact ⟨l, _, _, rfl, rfl, rfl, rfl, rfl, rfl, rfl, rfl, hint⟩
  unfold casesForItem
  rw [hl]
  simp only [hf, if_true]
  by_cases hvp : isViewPure item <;>
    by_cases hint : hasIntInput l <;>
      by_cases hp : hasParams l <;>
        simp only [hvp, hint, hp, if_true, if_false, Bool.false_eq_true,
          ite_true, ite_false] <;>
        refine ⟨_, _, rfl, ?_, ?_, ?_, ?_, ?_, ?_, ?_, ?_⟩ <;>
        simp [List.countP_cons, List.countP_append, List.countP_nil] <;>
        first
        | (intro c hc
           rcases hc with hc | hc | hc <;> subst hc <;>
             simp_all [BoundaryShape])
        | rfl
        | simp_all

/-- A non-function entry contributes nothing to the generator loop and
consumes no entropy. -/
lemma casesForItem_nonfunction (env : GenEnv) (item : AbiItem) (addr : String)
    (k : Nat) (hf : isFunctionItem item = false) :
    casesForItem env item addr k = .ok ([], k) := by
  unfold casesForItem
  simp [hf]

/-- A malformed function entry (absent inputs list) faults the loop body. -/
lemma casesForItem_malformed (env : GenEnv) (item : AbiItem) (addr : String)
    (k : Nat) (hf : isFunctionItem item = true) (hl : item.inputs = none) :
    casesForItem env item addr k = .error inputsUndefinedMsg := by
  unfold casesForItem
  rw [hl]
  simp [hf]

/-- Characterization of the whole generator loop on a well-formed schema: it
succeeds, and the produced cases are exactly the per-entry read/write,
boundary and fuzz cases — one read-style case per view/pure function, one
write-style case per other function, one boundary case per function with an
integer-tagged input, one fuzz case per function with inputs, no integration
case, with the advertised step counts and boundary shape. -/
lemma genLoop_spec (env : GenEnv) (addr : String) :
    ∀ (abi : List AbiItem) (k : Nat), wellFormed abi →
    ∃ cs k', genLoop env addr abi k = .ok (cs, k') ∧
      cs.countP isReadCase =
        abi.countP (fun i => isFunctionItem i && isViewPure i) ∧
      cs.countP isWriteCase =
        abi.countP (fun i => isFunctionItem i && !isViewPure i) ∧
      cs.countP isBoundaryCase =
        abi.countP (fun i => isFunctionItem i && hasIntInput (i.inputs.getD [])) ∧
      cs.countP isFuzzCase =
        abi.countP (fun i => isFunctionItem i && hasParams (i.inputs.getD [])) ∧
      cs.countP isIntegrationCase = 0 ∧
      (∀ c ∈ cs,
        (isReadCase c || isWriteCase c || isBoundaryCase c || isFuzzCase c) = true) ∧
      (∀ c ∈ cs, isReadCase c = true ∨ isWriteCase c = true ∨ isFuzzCase c = true →
        c.steps.length = 1) ∧
      (∀ c ∈ cs, isBoundaryCase c = true → BoundaryShape addr c)
  | [], k, _ => by
    refine ⟨[], k, rfl, ?_⟩
    simp
  | item :: rest, k, hwf => by
    have hwfr : wellFormed rest := fun i hi => hwf i (by simp [hi])
    by_cases hf : isFunctionItem item = true
    · have htype : item.type = "function" := by
        simpa [isFunctionItem] using hf
      obtain ⟨l, hl⟩ : ∃ l, item.inputs = some l := by
        rcases hi : item.inputs with _ | l
        · exact absurd hi (hwf item (by simp) htype)
        · exact ⟨l, rfl⟩
      obtain ⟨cs₁, k₁, heq₁, hr₁, hw₁, hb₁, hz₁, hn₁, hk₁, h1₁, hs₁⟩ :=
        casesForItem_spec env item addr k l hf hl
      obtain ⟨cs₂, k₂, heq₂, hr₂, hw₂, hb₂, hz₂, hn₂, hk₂, h1₂, hs₂⟩ :=
        genLoop_spec env addr rest k₁ hwfr
      refine ⟨cs₁ ++ cs₂, k₂, ?_, ?_, ?_, ?_, ?_, ?_, ?_, ?_, ?_⟩
      · simp [genLoop, heq₁, heq₂]
      · simp [List.countP_append, List.countP_cons, hr₁, hr₂, hf, hl,
          Nat.add_comm]
      · cases hvp : isViewPure item <;>
          simp [List.countP_append, List.countP_cons, hw₁, hw₂, hf, hl, hvp,
            Nat.add_comm]
      · simp [List.countP_append, List.countP_cons, hb₁, hb₂, hf, hl,
          Nat.add_comm]
      · simp [List.countP_append, List.countP_cons, hz₁, hz₂, hf, hl,
          Nat.add_comm]
      · simp [List.countP_append, hn₁, hn₂]
      · intro c hc
        rcases List.mem_append.mp hc with hc | hc
        · exact hk₁ c hc
        · exact hk₂ c hc
      · intro c hc
        rcases List.mem_append.mp hc with hc | hc
        · exact h1₁ c hc
        · exact h1₂ c hc
      · intro c hc
        rcases List.mem_append.mp hc with hc | hc
        · exact hs₁ c hc
        · exact hs₂ c hc
    · have hf' : isFunctionItem item = false := by
        simpa using hf
      obtain ⟨cs₂, k₂, heq₂, hr₂, hw₂, hb₂, hz₂, hn₂, hk₂, h1₂, hs₂⟩ :=
        genLoop_spec env addr rest k hwfr
      refine ⟨cs₂, k₂, ?_, ?_, ?_, ?_, ?_, ?_, hk₂, h1₂, hs₂⟩
      · simp [genLoop, casesForItem_nonfunction env item addr k hf', heq₂]
      · simp [List.countP_cons, hr₂, hf']
      · simp [List.countP_cons, hw₂, hf']
      · simp [List.countP_cons, hb₂, hf']
      · simp [List.countP_cons, hz₂, hf']
      · exact hn₂

/-- A member of the write-function filter is a function entry of the schema. -/
lemma isWriteFn_function {i : AbiItem} (h : isWriteFn i = true) :
    i.type = "function" := by
  have := (Bool.and_eq_true _ _).mp ((Bool.and_eq_true _ _).mp h).1
  simpa [isFunctionItem] using this.1

/-- A member of the read-function filter is a function entry of the schema. -/
lemma isReadFn_function {i : AbiItem} (h : isReadFn i = true) :
    i.type = "function" := by
  have := (Bool.and_eq_true _ _).mp h
  simpa [isFunctionItem] using this.1

/-- Characterization of generateIntegrationTests on a well-formed schema:
exactly one integration case — first write function then first read function
in declaration order, both with safe arguments — when the schema has both
kinds, and no case otherwise; the produced cases are integration cases only. -/
lemma generateIntegrationTests_spec (env : GenEnv) (k : Nat)
    (abi : List AbiItem) (addr : String) (hwf : wellFormed abi) :
    ∃ is k', generateIntegrationTests env k abi addr = .ok (is, k') ∧
      is.countP isIntegrationCase = is.length ∧
      is.countP isReadCase = 0 ∧ is.countP isWriteCase = 0 ∧
      is.countP isBoundaryCase = 0 ∧ is.countP isFuzzCase = 0 ∧
      ((abi.filter isWriteFn ≠ [] ∧ abi.filter isReadFn ≠ []) →
        ∃ w r wi ri c, (abi.filter isWriteFn).head? = some w ∧
          (abi.filter isReadFn).head? = some r ∧
          w.inputs = some wi ∧ r.inputs = some ri ∧ is = [c] ∧
          ∃ s₁ s₂, c.steps = [s₁, s₂] ∧
            s₁.action = "CONTRACT_CALL" ∧ s₂.action = "CONTRACT_CALL" ∧
            s₁.params.method = w.name ∧ s₁.params.contractAddress = addr ∧
            s₁.params.args = generateSafeArgs wi ∧
            s₂.params.method = r.name ∧ s₂.params.contractAddress = addr ∧
            s₂.params.args = generateSafeArgs ri) ∧
      ((abi.filter isWriteFn = [] ∨ abi.filter isReadFn = []) → is = []) := by
  rcases hW : abi.filter isWriteFn with _ | ⟨w, ws⟩
  · refine ⟨[], k, ?_, by simp, by simp, by simp, by simp, by simp, ?_,
      fun _ => rfl⟩
    · unfold generateIntegrationTests
      rw [hW]
    · simp [hW]
  · rcases hR : abi.filter isReadFn with _ | ⟨r, rs⟩
    · refine ⟨[], k, ?_, by simp, by simp, by simp, by simp, by simp, ?_,
        fun _ => rfl⟩
      · unfold generateIntegrationTests
        rw [hW, hR]
      · simp [hR]
    · have hwmem : w ∈ abi ∧ isWriteFn w = true :=
        List.mem_filter.mp (hW ▸ List.mem_cons_self w ws)
      have hrmem : r ∈ abi ∧ isReadFn r = true :=
        List.mem_filter.mp (hR ▸ List.mem_cons_self r rs)
      obtain ⟨wi, hwi⟩ : ∃ wi, w.inputs = some wi := by
        rcases hi : w.inputs with _ | wi
        · exact absurd hi (hwf w hwmem.1 (isWriteFn_function hwmem.2))
        · exact ⟨wi, rfl⟩
      obtain ⟨ri, hri⟩ : ∃ ri, r.inputs = some ri := by
        rcases hi : r.inputs with _ | ri
        · exact absurd hi (hwf r hrmem.1 (isReadFn_function hrmem.2))
        · exact ⟨ri, rfl⟩
      refine ⟨[createIntegrationTest env k w.name r.name wi ri addr], k + 3,
        ?_, by simp [List.countP_cons], by simp [List.countP_cons],
        by simp [List.countP_cons], by simp [List.countP_cons],
        by simp [List.countP_cons],
        fun _ => ⟨w, r, wi, ri, _, rfl, rfl, hwi, hri, rfl,
          _, _, rfl, rfl, rfl, rfl, rfl, rfl, rfl, rfl, rfl⟩,
        ?_⟩
      · unfold generateIntegrationTests
        rw [hW, hR]
        simp [hwi, hri]
      · intro h
        rcases h with h | h
        · simp [hW] at h
        · simp [hR] at h

/-- One-step equation of the generator loop on a non-empty schema. -/
lemma genLoop_cons (env : GenEnv) (addr : String) (item : AbiItem)
    (rest : List AbiItem) (k : Nat) :
    genLoop env addr (item :: rest) k =
      match casesForItem env item addr k with
      | .error e => .error e
      | .ok (cs, k') =>
        match genLoop env addr rest k' with
        | .error e => .error e
        | .ok (cs', k'') => .ok (cs ++ cs', k'') := rfl

/-- A non-function entry at the head of the schema is simply skipped by the
generator loop. -/
lemma genLoop_cons_nonfunction (env : GenEnv) (addr : String) (item : AbiItem)
    (rest : List AbiItem) (k : Nat) (hf : isFunctionItem item = false) :
    genLoop env addr (item :: rest) k = genLoop env addr rest k := by
  rw [genLoop_cons, casesForItem_nonfunction env item addr k hf]
  rcases h : genLoop env addr rest k with e | ⟨cs, k'⟩ <;> simp [h]

/-- The generator loop is insensitive to non-function entries: it coincides
with the loop over the function entries only. -/
lemma genLoop_filter (env : GenEnv) (addr : String) :
    ∀ (abi : List AbiItem) (k : Nat),
      genLoop env addr abi k = genLoop env addr (abi.filter isFunctionItem) k
  | [], _ => rfl
  | item :: rest, k => by
    rw [List.filter_cons]
    by_cases hf : isFunctionItem item = true
    · rw [if_pos hf]
      unfold genLoop
      rcases hcs : casesForItem env item addr k with e | ⟨cs, k'⟩
      · simp [hcs]
      · simp only [hcs]
        rw [genLoop_filter env addr rest k']
    · rw [if_neg hf]
      rw [genLoop_cons_nonfunction env addr item rest k (by simpa using hf)]
      exact genLoop_filter env addr rest k

/-- Only a write function passes the write filter, so pre-filtering to
function entries changes nothing. -/
lemma filter_isWriteFn_filter :
    ∀ abi : List AbiItem,
      (abi.filter isFunctionItem).filter isWriteFn = abi.filter isWriteFn
  | [] => rfl
  | i :: rest => by
    have himp : isWriteFn i = true → isFunctionItem i = true := fun h =>
      ((Bool.and_eq_true _ _).mp ((Bool.and_eq_true _ _).mp h).1).1
    by_cases hf : isFunctionItem i = true
    · by_cases hw : isWriteFn i = true <;>
        simp [List.filter_cons, hf, hw, filter_isWriteFn_filter rest]
    · have hw : isWriteFn i = false := by
        rcases hw : isWriteFn i with _ | _
        · rfl
        · exact absurd (himp hw) hf
      simp [List.filter_cons, hf, hw, filter_isWriteFn_filter rest]

/-- Only a read function passes the read filter, so pre-filtering to function
entries changes nothing. -/
lemma filter_isReadFn_filter :
    ∀ abi : List AbiItem,
      (abi.filter isFunctionItem).filter isReadFn = abi.filter isReadFn
  | [] => rfl
  | i :: rest => by
    have himp : isReadFn i = true → isFunctionItem i = true := fun h =>
      ((Bool.and_eq_true _ _).mp h).1
    by_cases hf : isFunctionItem i = true
    · by_cases hw : isReadFn i = true <;>
        simp [List.filter_cons, hf, hw, filter_isReadFn_filter rest]
    · have hw : isReadFn i = false := by
        rcases hw : isReadFn i with _ | _
        · rfl
        · exact absurd (himp hw) hf
      simp [List.filter_cons, hf, hw, filter_isReadFn_filter rest]

/-- The integration pass only looks at function entries. -/
lemma generateIntegrationTests_filter (env : GenEnv) (k : Nat)
    (abi : List AbiItem) (addr : String) :
    generateIntegrationTests env k abi addr =
      generateIntegrationTests env k (abi.filter isFunctionItem) addr := by
  unfold generateIntegrationTests
  rw [filter_isWriteFn_filter, filter_isReadFn_filter]

/-- Whole-generator version: non-function entries never produce a case and
never disturb the run — synthesis over the schema equals synthesis over its
function entries alone. -/
lemma generateTestCases_filter (env : GenEnv) (abi : List AbiItem)
    (addr : String) :
    generateTestCases env abi addr =
      generateTestCases env (abi.filter isFunctionItem) addr := by
  unfold generateTestCases
  rw [genLoop_filter env addr abi 0]
  rcases h : genLoop env addr (abi.filter isFunctionItem) 0 with e | ⟨cs, k⟩
  · simp [h]
  · simp only [h]
    rw [generateIntegrationTests_filter env k abi addr]

/-- The loop body faults only with the undefined-inputs message. -/
lemma casesForItem_error_msg (env : GenEnv) (item : AbiItem) (addr : String)
    (k : Nat) (e : String)
    (h : casesForItem env item addr k = .error e) : e = inputsUndefinedMsg := by
  by_cases hf : isFunctionItem item = true
  · rcases hi : item.inputs with _ | l
    · rw [casesForItem_malformed env item addr k hf hi] at h
      exact (Except.error.injEq _ _).mp h.symm
    · obtain ⟨cs, k', heq, -⟩ := casesForItem_spec env item addr k l hf hi
      rw [heq] at h
      cases h
  · rw [casesForItem_nonfunction env item addr k (by simpa using hf)] at h
    cases h

/-- A single malformed function entry anywhere in the schema aborts the whole
generator loop with the undefined-inputs fault. -/
lemma genLoop_error_of_malformed (env : GenEnv) (addr : String) :
    ∀ (abi : List AbiItem) (k : Nat),
      (∃ i ∈ abi, isFunctionItem i = true ∧ i.inputs = none) →
      genLoop env addr abi k = .error inputsUndefinedMsg
  | [], _, h => by
    obtain ⟨i, hi, -⟩ := h
    simp at hi
  | item :: rest, k, h => by
    obtain ⟨i, hi, hfi, hni⟩ := h
    rcases List.mem_cons.mp hi with rfl | hi'
    · unfold genLoop
      rw [casesForItem_malformed env i addr k hfi hni]
    · unfold genLoop
      rcases hcs : casesForItem env item addr k with e | ⟨cs, k'⟩
      · rw [casesForItem_error_msg env item addr k e hcs]
      · simp [genLoop_error_of_malformed env addr rest k' ⟨i, hi', hfi, hni⟩]

/-- A single malformed function entry aborts the whole synthesis call: no case
is produced for any entry. -/
lemma generateTestCases_error_of_malformed (env : GenEnv) (abi : List AbiItem)
    (addr : String)
    (h : ∃ i ∈ abi, isFunctionItem i = true ∧ i.inputs = none) :
    generateTestCases env abi addr = .error inputsUndefinedMsg := by
  unfold generateTestCases
  rw [genLoop_error_of_malformed env addr abi 0 h]

/-- Assembly of a successful synthesis run from its two phases. -/
lemma generateTestCases_eq (env : GenEnv) (abi : List AbiItem) (addr : String)
    (cs : List TestCase) (k : Nat) (is : List TestCase) (k' : Nat)
    (h1 : genLoop env addr abi 0 = .ok (cs, k))
    (h2 : generateIntegrationTests env k abi addr = .ok (is, k')) :
    generateTestCases env abi addr = .ok (cs ++ is) := by
  unfold generateTestCases
  simp [h1, h2]


set_option maxRecDepth 8000 in
/-- C1 counterexample: for the function `f(uint8 x, int8 y)` the emitted
boundary case uses the 256-bit extremes `MaxUint256` / `MinInt256` /
`MaxInt256`, not the extremes of the declared 8-bit widths (`255` / `-128` /
`127`) that the claim requires. -/
theorem claim_C1_counterexample :
    boundaryStepArgs (generateTestCases defaultEnv c1abi "0xA") =
      some [[ArgV.s "0", ArgV.s minInt256Str],
            [ArgV.s maxUint256Str, ArgV.s maxInt256Str]] ∧
    ArgV.s maxUint256Str ≠ ArgV.s "255" ∧
    ArgV.s minInt256Str ≠ ArgV.s "-128" ∧
    ArgV.s maxInt256Str ≠ ArgV.s "127" := by
  decide

/-- C1 (amended): on a well-formed schema, synthesis emits exactly one
boundary case per function having an integer-tagged parameter, with exactly
two steps: in the first step unsigned-integer arguments are `0` and
signed-integer arguments are `MinInt256`, in the second step they are
`MaxUint256` resp. `MaxInt256` — the 256-bit extremes regardless of the
declared width — and non-integer parameters receive the safe value in both
steps. -/
theorem claim_C1_amended (env : GenEnv) (abi : List AbiItem) (addr : String)
    (hwf : wellFormed abi) :
    ∃ cases, generateTestCases env abi addr = .ok cases ∧
      cases.countP isBoundaryCase =
        abi.countP (fun i => isFunctionItem i && hasIntInput (i.inputs.getD [])) ∧
      ∀ c ∈ cases, isBoundaryCase c = true → BoundaryShape addr c := by
  obtain ⟨cs, k, hcs, hr₁, hw₁, hb₁, hz₁, hn₁, hk₁, h1₁, hs₁⟩ :=
    genLoop_spec env addr abi 0 hwf
  obtain ⟨is, k', his, hil, hir, hiw, hib, hiz, hione, hinone⟩ :=
    generateIntegrationTests_spec env k abi addr hwf
  refine ⟨cs ++ is, generateTestCases_eq env abi addr cs k is k' hcs his,
    ?_, ?_⟩
  · simp [List.countP_append, hb₁, hib]
  · intro c hc hbc
    rcases List.mem_append.mp hc with hc | hc
    · exact hs₁ c hc hbc
    · have : isBoundaryCase c = false := by
        have := List.countP_eq_zero.mp hib c hc
        simpa using this
      rw [this] at hbc
      cases hbc

/-- C1 witness: the amended theorem applied to the `f(uint8,int8)` schema. -/
theorem claim_C1_witness :
    ∃ cases, generateTestCases defaultEnv c1abi "0xA" = .ok cases ∧
      cases.countP isBoundaryCase = 1 := by
  obtain ⟨cases, hgen, hcount, -⟩ :=
    claim_C1_amended defaultEnv c1abi "0xA" (by decide)
  exact ⟨cases, hgen, by rw [hcount]; decide⟩

/-- C2 counterexample: a schema with a malformed function entry between two
well-formed function entries makes the whole synthesis call fault — no case is
produced for the other entries (removing the malformed entry, synthesis of the
same entries succeeds). -/
theorem claim_C2_counterexample :
    generateTestCases defaultEnv c2abi "0xA" = .error inputsUndefinedMsg ∧
    (generateTestCases defaultEnv (c2abi.eraseIdx 1) "0xA").isOk = true := by
  decide

/-- C2 (amended): entries whose type tag is not `function` are skipped with no
case emitted and do not disturb synthesis; a well-formed schema always
synthesizes (a function entry with an unrecognized parameter type tag is not
skipped — it still yields cases, with `0` placeholder arguments); but a
function entry missing its inputs list aborts the entire synthesis call with a
fault, producing no case for any entry. -/
theorem claim_C2_amended (env : GenEnv) (abi : List AbiItem) (addr : String) :
    (generateTestCases env abi addr =
      generateTestCases env (abi.filter isFunctionItem) addr) ∧
    (wellFormed abi → ∃ cases, generateTestCases env abi addr = .ok cases) ∧
    ((∃ i ∈ abi, isFunctionItem i = true ∧ i.inputs = none) →
      generateTestCases env abi addr = .error inputsUndefinedMsg) := by
  refine ⟨generateTestCases_filter env abi addr, fun hwf => ?_,
    generateTestCases_error_of_malformed env abi addr⟩
  obtain ⟨cs, k, hcs, -⟩ := genLoop_spec env addr abi 0 hwf
  obtain ⟨is, k', his, -⟩ := generateIntegrationTests_spec env k abi addr hwf
  exact ⟨cs ++ is, generateTestCases_eq env abi addr cs k is k' hcs his⟩

/-- C2 witness: the amended theorem applied to the well-formed demonstration
schema and to the schema with the malformed middle entry. -/
theorem claim_C2_witness :
    (∃ cases, generateTestCases defaultEnv demoAbi "0xA" = .ok cases) ∧
    generateTestCases defaultEnv c2abi "0xA" = .error inputsUndefinedMsg :=
  ⟨(claim_C2_amended defaultEnv demoAbi "0xA").2.1 (by decide),
   (claim_C2_amended defaultEnv c2abi "0xA").2.2 (by decide)⟩

/-- C4: on a well-formed schema with at least one write (non-view/pure)
function and at least one read (view/pure) function, synthesis produces
exactly one integration case — two contract-call steps, the first calling the
first write function in declaration order and the second calling the first
read function in declaration order, both with safe arguments; lacking either
kind, zero integration cases are produced. -/
theorem claim_C4 (env : GenEnv) (abi : List AbiItem) (addr : String)
    (hwf : wellFormed abi) :
    ∃ cases, generateTestCases env abi addr = .ok cases ∧
      ((abi.filter isWriteFn ≠ [] ∧ abi.filter isReadFn ≠ []) →
        cases.countP isIntegrationCase = 1 ∧
        ∀ c ∈ cases, isIntegrationCase c = true →
          ∃ w r wi ri, (abi.filter isWriteFn).head? = some w ∧
            (abi.filter isReadFn).head? = some r ∧
            w.inputs = some wi ∧ r.inputs = some ri ∧
            ∃ s₁ s₂, c.steps = [s₁, s₂] ∧
              s₁.action = "CONTRACT_CALL" ∧ s₂.action = "CONTRACT_CALL" ∧
              s₁.params.method = w.name ∧ s₁.params.contractAddress = addr ∧
              s₁.params.args = generateSafeArgs wi ∧
              s₂.params.method = r.name ∧ s₂.params.contractAddress = addr ∧
              s₂.params.args = generateSafeArgs ri) ∧
      ((abi.filter isWriteFn = [] ∨ abi.filter isReadFn = []) →
        cases.countP isIntegrationCase = 0) := by
  obtain ⟨cs, k, hcs, hr₁, hw₁, hb₁, hz₁, hn₁, hk₁, h1₁, hs₁⟩ :=
    genLoop_spec env addr abi 0 hwf
  obtain ⟨is, k', his, hil, hir, hiw, hib, hiz, hione, hinone⟩ :=
    generateIntegrationTests_spec env k abi addr hwf
  refine ⟨cs ++ is, generateTestCases_eq env abi addr cs k is k' hcs his,
    fun hboth => ?_, fun hmiss => ?_⟩
  · obtain ⟨w, r, wi, ri, c, hwh, hrh, hwi, hri, hiseq, s₁, s₂, hshape⟩ :=
      hione hboth
    constructor
    · rw [List.countP_append, hn₁, hiseq]
      simp [List.countP_cons, hiseq ▸ hil]
    · intro c' hc' hic'
      rcases List.mem_append.mp hc' with hc' | hc'
      · have : isIntegrationCase c' = false := by
          have := List.countP_eq_zero.mp hn₁ c' hc'
          simpa using this
        rw [this] at hic'
        cases hic'
      · rw [hiseq] at hc'
        have hc'' : c' = c := by simpa using hc'
        subst hc''
        exact ⟨w, r, wi, ri, hwh, hrh, hwi, hri, s₁, s₂, hshape⟩
  · rw [List.countP_append, hn₁, hinone hmiss]
    simp

/-- C4 witness: the theorem applied to the demonstration schema (one write
function, one read function). -/
theorem claim_C4_witness :
    ∃ cases, generateTestCases defaultEnv demoAbi "0xA" = .ok cases ∧
      cases.countP isIntegrationCase = 1 := by
  obtain ⟨cases, hgen, hone, -⟩ := claim_C4 defaultEnv demoAbi "0xA" (by decide)
  exact ⟨cases, hgen, (hone (by decide)).1⟩

/-- C5: on a well-formed schema, synthesis emits exactly one one-step
read-style case per view/pure function and exactly one one-step write-style
case per other function, exactly one one-step fuzz case per function with at
least one parameter, and entries not classified as functions never produce a
case (synthesis coincides with synthesis over the function entries alone). -/
theorem claim_C5 (env : GenEnv) (abi : List AbiItem) (addr : String)
    (hwf : wellFormed abi) :
    ∃ cases, generateTestCases env abi addr = .ok cases ∧
      cases.countP isReadCase =
        abi.countP (fun i => isFunctionItem i && isViewPure i) ∧
      cases.countP isWriteCase =
        abi.countP (fun i => isFunctionItem i && !isViewPure i) ∧
      cases.countP isFuzzCase =
        abi.countP (fun i => isFunctionItem i && hasParams (i.inputs.getD [])) ∧
      (∀ c ∈ cases, (isReadCase c || isWriteCase c || isFuzzCase c) = true →
        c.steps.length = 1) ∧
      generateTestCases env abi addr =
        generateTestCases env (abi.filter isFunctionItem) addr := by
  obtain ⟨cs, k, hcs, hr₁, hw₁, hb₁, hz₁, hn₁, hk₁, h1₁, hs₁⟩ :=
    genLoop_spec env addr abi 0 hwf
  obtain ⟨is, k', his, hil, hir, hiw, hib, hiz, hione, hinone⟩ :=
    generateIntegrationTests_spec env k abi addr hwf
  refine ⟨cs ++ is, generateTestCases_eq env abi addr cs k is k' hcs his,
    ?_, ?_, ?_, ?_, generateTestCases_filter env abi addr⟩
  · simp [List.countP_append, hr₁, hir]
  · simp [List.countP_append, hw₁, hiw]
  · simp [List.countP_append, hz₁, hiz]
  · intro c hc hcls
    rcases List.mem_append.mp hc with hc | hc
    · refine h1₁ c hc ?_
      rcases Bool.or_eq_true .. |>.mp hcls with h | h
      · rcases Bool.or_eq_true .. |>.mp h with h | h
        · exact Or.inl h
        · exact Or.inr (Or.inl h)
      · exact Or.inr (Or.inr h)
    · exfalso
      have hr0 : isReadCase c = false := by
        simpa using List.countP_eq_zero.mp hir c hc
      have hw0 : isWriteCase c = false := by
        simpa using List.countP_eq_zero.mp hiw c hc
      have hz0 : isFuzzCase c = false := by
        simpa using List.countP_eq_zero.mp hiz c hc
      rw [hr0, hw0, hz0] at hcls
      simp at hcls

/-- C5 witness: the theorem applied to the demonstration schema — one read
case (for `balanceOf`), one write case (for `transfer`), two fuzz cases. -/
theorem claim_C5_witness :
    ∃ cases, generateTestCases defaultEnv demoAbi "0xA" = .ok cases ∧
      cases.countP isReadCase = 1 ∧ cases.countP isWriteCase = 1 ∧
      cases.countP isFuzzCase = 2 := by
  obtain ⟨cases, hgen, hr, hw, hz, -, -⟩ :=
    claim_C5 defaultEnv demoAbi "0xA" (by decide)
  exact ⟨cases, hgen, by rw [hr]; decide, by rw [hw]; decide,
    by rw [hz]; decide⟩


/-- Stripping a read-style case leaves only entropy-free content. -/
lemma stripCase_view (env : GenEnv) (k : Nat) (n : String) (l : List AbiInput)
    (a : String) :
    stripCase (createViewFunctionTest env k n l a).1 =
      strippedCase ("Read Test: " ++ n)
        ("Verify read operation for " ++ n ++ " function")
        "Function should return a valid response"
        [strippedCallStep n a ("Call " ++ n ++ " with safe parameters")
          (generateSafeArgs l)] := by
  unfold stripCase
  rw [(readCase_class env k n l a).2.2.2.1]
  simp [stripStep, createViewFunctionTest, strippedCase, strippedCallStep]

/-- Stripping a write-style case leaves only entropy-free content. -/
lemma stripCase_write (env : GenEnv) (k : Nat) (n : String) (l : List AbiInput)
    (a : String) :
    stripCase (createWriteFunctionTest env k n l a).1 =
      strippedCase ("Write Test: " ++ n)
        ("Verify state change for " ++ n ++ " function")
        "Transaction should be successful and state should be updated"
        [strippedCallStep n a ("Execute " ++ n ++ " with valid parameters")
          (generateSafeArgs l)] := by
  unfold stripCase
  rw [(writeCase_class env k n l a).2.2.2.1]
  simp [stripStep, createWriteFunctionTest, strippedCase, strippedCallStep]

/-- Stripping a boundary case leaves only entropy-free content — in
particular both boundary argument lists are kept. -/
lemma stripCase_boundary (env : GenEnv) (k : Nat) (n : String)
    (l : List AbiInput) (a : String) :
    stripCase (createBoundaryTest env k n l a).1 =
      strippedCase ("Boundary Test: " ++ n)
        ("Test boundary conditions for " ++ n ++ " function")
        "Function should handle boundary values correctly"
        [strippedCallStep n a ("Test " ++ n ++ " with minimum values")
          (generateBoundaryArgs l .min),
         strippedCallStep n a ("Test " ++ n ++ " with maximum values")
          (generateBoundaryArgs l .max)] := by
  unfold stripCase
  rw [(boundaryCase_class env k n l a).2.2.2.1]
  simp [stripStep, createBoundaryTest, strippedCase, strippedCallStep]

/-- Stripping a fuzz case erases its randomly drawn argument values. -/
lemma stripCase_fuzz (env : GenEnv) (k : Nat) (n : String) (l : List AbiInput)
    (a : String) :
    stripCase (createFuzzingTest env k n l a).1 =
      strippedCase ("Fuzzing Test: " ++ n)
        ("Fuzz testing for " ++ n ++ " function with random inputs")
        "Function should handle unexpected inputs gracefully"
        [strippedCallStep n a ("Test " ++ n ++ " with fuzzed inputs") []] := by
  unfold stripCase
  rw [(fuzzCase_class env k n l a).2.2.2.1]
  simp [stripStep, createFuzzingTest, strippedCase, strippedCallStep]

/-- Stripping the integration case leaves only entropy-free content. -/
lemma stripCase_integration (env : GenEnv) (k : Nat) (wname rname : String)
    (wi ri : List AbiInput) (a : String) :
    stripCase (createIntegrationTest env k wname rname wi ri a) =
      strippedCase "State Change Verification"
        "Verify state changes through write operations and confirm with read operations"
        "State change should be reflected in read operation"
        [strippedCallStep wname a ("Execute " ++ wname ++ " to modify state")
          (generateSafeArgs wi),
         strippedCallStep rname a ("Verify state change using " ++ rname)
          (generateSafeArgs ri)] := by
  unfold stripCase
  rw [(integrationCase_class env k wname rname wi ri a).2.2.2.1]
  simp [stripStep, createIntegrationTest, strippedCase, strippedCallStep]

/-- Entropy consumed by a read-style case. -/
@[simp] lemma createView_counter (env : GenEnv) (k : Nat) (n : String)
    (l : List AbiInput) (a : String) :
    (createViewFunctionTest env k n l a).2 = k + 2 := rfl

/-- Entropy consumed by a write-style case. -/
@[simp] lemma createWrite_counter (env : GenEnv) (k : Nat) (n : String)
    (l : List AbiInput) (a : String) :
    (createWriteFunctionTest env k n l a).2 = k + 2 := rfl

/-- Entropy consumed by a boundary case. -/
@[simp] lemma createBoundary_counter (env : GenEnv) (k : Nat) (n : String)
    (l : List AbiInput) (a : String) :
    (createBoundaryTest env k n l a).2 = k + 3 := rfl

/-- Entropy consumed by a fuzz case. -/
@[simp] lemma createFuzz_counter (env : GenEnv) (k : Nat) (n : String)
    (l : List AbiInput) (a : String) :
    (createFuzzingTest env k n l a).2 = k + 2 + l.length := rfl

/-- Two runs of the loop body over the same entry agree after erasure of the
opaque content, and consume the entropy counter identically. -/
lemma casesForItem_strip (env₁ env₂ : GenEnv) (item : AbiItem) (addr : String)
    (k : Nat) :
    stripPhase (casesForItem env₁ item addr k) =
      stripPhase (casesForItem env₂ item addr k) := by
  by_cases hf : isFunctionItem item = true
  · rcases hl : item.inputs with _ | l
    · rw [casesForItem_malformed env₁ item addr k hf hl,
        casesForItem_malformed env₂ item addr k hf hl]
    · unfold casesForItem
      rw [hl]
      simp only [hf, if_true]
      by_cases hvp : isViewPure item <;>
        by_cases hint : hasIntInput l <;>
          by_cases hp : hasParams l <;>
            simp [hvp, hint, hp, stripPhase, stripCase_view, stripCase_write,
              stripCase_boundary, stripCase_fuzz]
  · rw [casesForItem_nonfunction env₁ item addr k (by simpa using hf),
      casesForItem_nonfunction env₂ item addr k (by simpa using hf)]

/-- Two runs of the whole generator loop agree after erasure of the opaque
content. -/
lemma genLoop_strip (env₁ env₂ : GenEnv) (addr : String) :
    ∀ (abi : List AbiItem) (k : Nat),
      stripPhase (genLoop env₁ addr abi k) =
        stripPhase (genLoop env₂ addr abi k)
  | [], _ => rfl
  | item :: rest, k => by
    rw [genLoop_cons env₁ addr item rest k, genLoop_cons env₂ addr item rest k]
    have hitem := casesForItem_strip env₁ env₂ item addr k
    rcases h₁ : casesForItem env₁ item addr k with e₁ | ⟨cs₁, k₁⟩ <;>
      rcases h₂ : casesForItem env₂ item addr k with e₂ | ⟨cs₂, k₂⟩ <;>
        rw [h₁, h₂] at hitem <;> simp only [h₁, h₂]
    · simp [stripPhase] at hitem ⊢
      exact hitem
    · simp [stripPhase] at hitem
    · simp [stripPhase] at hitem
    · have hpair : List.map stripCase cs₁ = List.map stripCase cs₂ ∧ k₁ = k₂ := by
        simpa [stripPhase] using hitem
      obtain ⟨hmap, hk⟩ := hpair
      subst hk
      have hrest := genLoop_strip env₁ env₂ addr rest k₁
      rcases g₁ : genLoop env₁ addr rest k₁ with f₁ | ⟨ds₁, m₁⟩ <;>
        rcases g₂ : genLoop env₂ addr rest k₁ with f₂ | ⟨ds₂, m₂⟩ <;>
          rw [g₁, g₂] at hrest <;> simp only [g₁, g₂]
      · simp [stripPhase] at hrest ⊢
        exact hrest
      · simp [stripPhase] at hrest
      · simp [stripPhase] at hrest
      · have hpair' : List.map stripCase ds₁ = List.map stripCase ds₂ ∧ m₁ = m₂ := by
          simpa [stripPhase] using hrest
        obtain ⟨hmap', hm⟩ := hpair'
        subst hm
        simp [stripPhase, List.map_append, hmap, hmap']

/-- Two runs of the integration pass over the same schema agree after erasure
of the opaque content, and consume the entropy counter identically. -/
lemma generateIntegrationTests_strip (env₁ env₂ : GenEnv) (k : Nat)
    (abi : List AbiItem) (addr : String) :
    stripPhase (generateIntegrationTests env₁ k abi addr) =
      stripPhase (generateIntegrationTests env₂ k abi addr) := by
  unfold generateIntegrationTests
  rcases hW : abi.filter isWriteFn with _ | ⟨w, ws⟩
  · rfl
  · rcases hR : abi.filter isReadFn with _ | ⟨r, rs⟩
    · rfl
    · rcases hwi : w.inputs with _ | wi
      · simp [stripPhase, hwi]
      · rcases hri : r.inputs with _ | ri
        · simp [stripPhase, hwi, hri]
        · simp [stripPhase, hwi, hri, stripCase_integration]

/-- C6: two synthesis runs over the same schema and address — with entirely
different timestamp/randomness draws — agree after erasing precisely the
opaque identifiers (case ids, step ids) and the fuzz-case argument values:
same case names, descriptions, narratives, statuses, step lists (hence step
counts), methods, target addresses, and identical argument values on the
safe and boundary paths. -/
theorem claim_C6 (env₁ env₂ : GenEnv) (abi : List AbiItem) (addr : String) :
    stripResult (generateTestCases env₁ abi addr) =
      stripResult (generateTestCases env₂ abi addr) := by
  unfold generateTestCases
  have hloop := genLoop_strip env₁ env₂ addr abi 0
  rcases g₁ : genLoop env₁ addr abi 0 with e₁ | ⟨cs₁, k₁⟩ <;>
    rcases g₂ : genLoop env₂ addr abi 0 with e₂ | ⟨cs₂, k₂⟩ <;>
      rw [g₁, g₂] at hloop <;> simp only [g₁, g₂]
  · simp [stripPhase] at hloop
    simp [stripResult, hloop]
  · simp [stripPhase] at hloop
  · simp [stripPhase] at hloop
  · have hpair : List.map stripCase cs₁ = List.map stripCase cs₂ ∧ k₁ = k₂ := by
      simpa [stripPhase] using hloop
    obtain ⟨hmap, hk⟩ := hpair
    subst hk
    have hint := generateIntegrationTests_strip env₁ env₂ k₁ abi addr
    rcases i₁ : generateIntegrationTests env₁ k₁ abi addr with f₁ | ⟨is₁, m₁⟩ <;>
      rcases i₂ : generateIntegrationTests env₂ k₁ abi addr with f₂ | ⟨is₂, m₂⟩ <;>
        rw [i₁, i₂] at hint <;> simp only [i₁, i₂]
    · simp [stripPhase] at hint
      simp [stripResult, hint]
    · simp [stripPhase] at hint
    · simp [stripPhase] at hint
    · have hpair' : List.map stripCase is₁ = List.map stripCase is₂ ∧ m₁ = m₂ := by
        simpa [stripPhase] using hint
      simp [stripResult, List.map_append, hmap, hpair'.1]
